import Mathlib

/-!
Verification of the discord_relay queue core against its specification.

The Python source (`src/relay_server/`) is shallowly embedded: each
`*_sync` method of `QueueService` becomes a pure Lean function on an
explicit `Store` value; the wall clock and freshly generated UUIDs are
passed as parameters; timestamps are modelled as integers.
-/

namespace Relay

/-- Delivery lifecycle states (`models.DeliveryState`). -/
inductive DeliveryState where
  | pending
  | leased
  | delivered
deriving DecidableEq, Repr

/-- A row of the `discord_messages` table (`models.DiscordMessage`). -/
structure DiscordMessage where
  id : String
  discord_bot_id : String
  discord_message_id : String
  author_id : String
  author_name : String
  channel_id : Option String
  guild_id : Option String
  is_dm : Bool
  content : String
  timestamp : Int
  dedupe_key : String
  created_at : Int
deriving DecidableEq, Repr

/-- A row of the `deliveries` table (`models.Delivery`). -/
structure Delivery where
  id : String
  discord_message_id : String
  backend_bot_id : String
  state : DeliveryState
  delivered_at : Option Int
  lease_id : Option String
  lease_expires_at : Option Int
  attempts : Nat
  last_error : Option String
  created_at : Int
deriving DecidableEq, Repr

/-- Webhook nudge states (`models.WebhookNudgeState`). -/
inductive WebhookNudgeState where
  | pending
  | sending
  | failed
deriving DecidableEq, Repr

/-- A row of the `webhook_nudges` table (`models.WebhookNudge`). -/
structure WebhookNudge where
  id : String
  backend_bot_id : String
  discord_bot_id : Option String
  last_dedupe_key : Option String
  state : WebhookNudgeState
  attempts : Nat
  next_attempt_at : Int
  last_error : Option String
  created_at : Int
  updated_at : Int
deriving DecidableEq, Repr

/-- The whole database: the three tables, each as a list of rows in
insertion order. -/
structure Store where
  messages : List DiscordMessage
  deliveries : List Delivery
  nudges : List WebhookNudge
deriving DecidableEq, Repr

/-- The `DiscordMessageRecord` dataclass of `queue.py` (the enqueue
payload). -/
structure DiscordMessageRecord where
  discord_message_id : String
  discord_bot_id : String
  author_id : String
  author_name : String
  channel_id : Option String
  guild_id : Option String
  is_dm : Bool
  content : String
  timestamp : Int
deriving DecidableEq, Repr

/-! ## Enqueue (`QueueService._enqueue_message_sync`) -/

/-- Inserting a new `discord_messages` row raises `IntegrityError` iff an
existing row shares its `dedupe_key` (UNIQUE column) or its
`(discord_bot_id, discord_message_id)` pair (the
`idx_discord_messages_bot_message` UNIQUE index of `models.py`). -/
def violatesMessageUnique (st : Store) (payload : DiscordMessageRecord)
    (dedupe_key : String) : Bool :=
  st.messages.any fun m =>
    m.dedupe_key == dedupe_key ||
      (m.discord_bot_id == payload.discord_bot_id &&
        m.discord_message_id == payload.discord_message_id)

/-- The message row built by `_enqueue_message_sync`; `msgId` is the fresh
UUID primary key and `now` the insertion clock (`created_at` default). -/
def mkEnqueuedMessage (payload : DiscordMessageRecord) (dedupe_key : String)
    (msgId : String) (now : Int) : DiscordMessage :=
  { id := msgId
    discord_bot_id := payload.discord_bot_id
    discord_message_id := payload.discord_message_id
    author_id := payload.author_id
    author_name := payload.author_name
    channel_id := payload.channel_id
    guild_id := payload.guild_id
    is_dm := payload.is_dm
    content := payload.content
    timestamp := payload.timestamp
    dedupe_key := dedupe_key
    created_at := now }

/-- The delivery row built by `_enqueue_message_sync`: state PENDING,
column defaults (`attempts = 0`, lease fields NULL). -/
def mkEnqueuedDelivery (backend_bot_id msgId delivId : String) (now : Int) :
    Delivery :=
  { id := delivId
    discord_message_id := msgId
    backend_bot_id := backend_bot_id
    state := .pending
    delivered_at := none
    lease_id := none
    lease_expires_at := none
    attempts := 0
    last_error := none
    created_at := now }

/-- `QueueService._enqueue_message_sync`: insert the message and a PENDING
delivery, commit and return `true`; on `IntegrityError` roll back (leave
the store unchanged) and return `false`. -/
def enqueueMessageSync (st : Store) (backend_bot_id : String)
    (payload : DiscordMessageRecord) (dedupe_key : String)
    (msgId delivId : String) (now : Int) : Store × Bool :=
  if violatesMessageUnique st payload dedupe_key then
    (st, false)
  else
    ({ st with
        messages := st.messages ++ [mkEnqueuedMessage payload dedupe_key msgId now]
        deliveries :=
          st.deliveries ++ [mkEnqueuedDelivery backend_bot_id msgId delivId now] },
      true)

/-- One enqueue call: its backend, payload, the fresh UUIDs the database
would generate, and the clock at call time. -/
structure EnqueueCall where
  backend_bot_id : String
  payload : DiscordMessageRecord
  msgId : String
  delivId : String
  now : Int
deriving DecidableEq, Repr

/-- Run a sequence of `_enqueue_message_sync` calls that all use the same
`dedupe_key`, collecting the `inserted` results. -/
def runEnqueues (st : Store) (dk : String) :
    List EnqueueCall → Store × List Bool
  | [] => (st, [])
  | c :: cs =>
    let r := enqueueMessageSync st c.backend_bot_id c.payload dk c.msgId
      c.delivId c.now
    let rest := runEnqueues r.1 dk cs
    (rest.1, r.2 :: rest.2)

/-- Does some message row already carry this dedupe key? -/
def hasDedupe (st : Store) (dk : String) : Bool :=
  st.messages.any fun m => m.dedupe_key == dk

theorem violates_of_hasDedupe {st : Store} {dk : String}
    (p : DiscordMessageRecord) (h : hasDedupe st dk = true) :
    violatesMessageUnique st p dk = true := by
  simp only [hasDedupe, List.any_eq_true] at h
  obtain ⟨m, hm, hdk⟩ := h
  simp only [violatesMessageUnique, List.any_eq_true]
  exact ⟨m, hm, by simp [hdk]⟩

/-- Once the store holds the dedupe key, every further enqueue with that
key is a no-op returning `false`. -/
theorem runEnqueues_of_hasDedupe {st : Store} {dk : String}
    (h : hasDedupe st dk = true) (cs : List EnqueueCall) :
    runEnqueues st dk cs = (st, List.replicate cs.length false) := by
  induction cs with
  | nil => rfl
  | cons c cs ih =>
    simp [runEnqueues, enqueueMessageSync, violates_of_hasDedupe c.payload h, ih,
      List.replicate_succ]

/-- **C1.** Enqueue is at-most-once per `dedupe_key`: when the first of a
sequence of `_enqueue_message_sync` calls sharing one `dedupe_key` does not
hit a uniqueness conflict (and its fresh message UUID is unused), it inserts
exactly one message row and exactly one PENDING delivery row for the given
backend and returns `inserted = true`; every subsequent call with the same
key returns `inserted = false` and leaves the store unchanged. -/
theorem enqueue_at_most_once_per_dedupe_key
    (st : Store) (dk : String) (c : EnqueueCall) (cs : List EnqueueCall)
    (huniq : violatesMessageUnique st c.payload dk = false)
    (hfresh : (st.deliveries.all fun d => d.discord_message_id != c.msgId) = true) :
    (runEnqueues st dk (c :: cs)).2 = true :: List.replicate cs.length false ∧
    (runEnqueues st dk (c :: cs)).1 =
      { st with
          messages := st.messages ++ [mkEnqueuedMessage c.payload dk c.msgId c.now]
          deliveries := st.deliveries ++
            [mkEnqueuedDelivery c.backend_bot_id c.msgId c.delivId c.now] } ∧
    ((runEnqueues st dk (c :: cs)).1.messages.filter
        fun m => m.dedupe_key == dk).length = 1 ∧
    ((runEnqueues st dk (c :: cs)).1.deliveries.filter
        fun d => d.discord_message_id == c.msgId) =
      [mkEnqueuedDelivery c.backend_bot_id c.msgId c.delivId c.now] ∧
    (mkEnqueuedDelivery c.backend_bot_id c.msgId c.delivId c.now).state = .pending ∧
    (mkEnqueuedDelivery c.backend_bot_id c.msgId c.delivId c.now).backend_bot_id =
      c.backend_bot_id := by
  have hstep :
      enqueueMessageSync st c.backend_bot_id c.payload dk c.msgId c.delivId c.now =
        ({ st with
            messages := st.messages ++ [mkEnqueuedMessage c.payload dk c.msgId c.now]
            deliveries := st.deliveries ++
              [mkEnqueuedDelivery c.backend_bot_id c.msgId c.delivId c.now] },
          true) := by
    simp [enqueueMessageSync, huniq]
  have hdk1 :
      hasDedupe
        { st with
            messages := st.messages ++ [mkEnqueuedMessage c.payload dk c.msgId c.now]
            deliveries := st.deliveries ++
              [mkEnqueuedDelivery c.backend_bot_id c.msgId c.delivId c.now] }
        dk = true := by
    simp [hasDedupe, mkEnqueuedMessage]
  have hrun :
      runEnqueues st dk (c :: cs) =
        ({ st with
            messages := st.messages ++ [mkEnqueuedMessage c.payload dk c.msgId c.now]
            deliveries := st.deliveries ++
              [mkEnqueuedDelivery c.backend_bot_id c.msgId c.delivId c.now] },
          true :: List.replicate cs.length false) := by
    simp [runEnqueues, hstep, runEnqueues_of_hasDedupe hdk1 cs]
  have hany :
      (st.messages.any fun m =>
        m.dedupe_key == dk ||
          (m.discord_bot_id == c.payload.discord_bot_id &&
            m.discord_message_id == c.payload.discord_message_id)) = false := by
    simpa [violatesMessageUnique] using huniq
  have hdkold : ∀ m ∈ st.messages, ¬(m.dedupe_key == dk) = true := by
    intro m hm hcontra
    have := List.any_eq_false.mp hany m hm
    simp [hcontra] at this
  have hmsgold : ∀ d ∈ st.deliveries, ¬(d.discord_message_id == c.msgId) = true := by
    intro d hd hcontra
    have h2 := List.all_eq_true.mp hfresh d hd
    have h3 : ¬ d.discord_message_id = c.msgId := by simpa using h2
    exact h3 (by simpa using hcontra)
  refine ⟨by rw [hrun], by rw [hrun], ?_, ?_, rfl, rfl⟩
  · rw [hrun]
    simp only [List.filter_append, List.length_append]
    rw [List.filter_eq_nil_iff.mpr hdkold]
    simp [mkEnqueuedMessage]
  · rw [hrun]
    simp only [List.filter_append]
    rw [List.filter_eq_nil_iff.mpr hmsgold]
    simp [mkEnqueuedDelivery]

/-- Witness for C1: two calls with the same dedupe key against an empty
store; the hypotheses hold by computation. -/
theorem enqueue_at_most_once_per_dedupe_key_witness :
    (runEnqueues ⟨[], [], []⟩ "d:1"
        [⟨"alpha", ⟨"1", "d", "u", "U", none, none, true, "hi", 0⟩, "m1", "v1", 0⟩,
         ⟨"alpha", ⟨"1", "d", "u", "U", none, none, true, "hi", 1⟩, "m2", "v2", 1⟩]).2 =
      [true, false] := by
  have h := enqueue_at_most_once_per_dedupe_key ⟨[], [], []⟩ "d:1"
    ⟨"alpha", ⟨"1", "d", "u", "U", none, none, true, "hi", 0⟩, "m1", "v1", 0⟩
    [⟨"alpha", ⟨"1", "d", "u", "U", none, none, true, "hi", 1⟩, "m2", "v2", 1⟩]
    (by decide) (by decide)
  simpa using h.1

/-! ## Lease (`QueueService._lease_messages_sync`) -/

/-- `ORDER BY created_at` (ascending) on deliveries; the engine's tie
order is modelled by a stable sort. -/
def byCreatedAt (a b : Delivery) : Prop := a.created_at ≤ b.created_at

instance : DecidableRel byCreatedAt :=
  fun a b => inferInstanceAs (Decidable (a.created_at ≤ b.created_at))

instance : IsTotal Delivery byCreatedAt := ⟨fun _ _ => Int.le_total _ _⟩

instance : IsTrans Delivery byCreatedAt := ⟨fun _ _ _ => Int.le_trans⟩

/-- `ORDER BY timestamp DESC` on messages. -/
def byTimestampDesc (a b : DiscordMessage) : Prop := b.timestamp ≤ a.timestamp

instance : DecidableRel byTimestampDesc :=
  fun a b => inferInstanceAs (Decidable (b.timestamp ≤ a.timestamp))

instance : IsTotal DiscordMessage byTimestampDesc :=
  ⟨fun _ _ => (Int.le_total _ _).symm⟩

instance : IsTrans DiscordMessage byTimestampDesc :=
  ⟨fun _ _ _ h h' => Int.le_trans h' h⟩

instance : Inhabited DiscordMessage :=
  ⟨{ id := "", discord_bot_id := "", discord_message_id := "", author_id := ""
     author_name := "", channel_id := none, guild_id := none, is_dm := false
     content := "", timestamp := 0, dedupe_key := "", created_at := 0 }⟩

/-- The `delivery.message` relationship: the message row whose primary key
is the delivery's foreign key (total via a default for the unreachable
missing-row case; the FK constraint makes it present in every reachable
store). -/
def messageOf (st : Store) (mid : String) : DiscordMessage :=
  (st.messages.find? fun m => m.id == mid).getD default

/-- Projection of a message row to the `DiscordMessageRecord` dataclass,
as written out field by field in `queue.py`. -/
def DiscordMessage.toRecord (m : DiscordMessage) : DiscordMessageRecord :=
  { discord_message_id := m.discord_message_id
    discord_bot_id := m.discord_bot_id
    author_id := m.author_id
    author_name := m.author_name
    channel_id := m.channel_id
    guild_id := m.guild_id
    is_dm := m.is_dm
    content := m.content
    timestamp := m.timestamp }

/-- The `LeasedDeliveryRecord` dataclass of `queue.py`. -/
structure LeasedDeliveryRecord where
  delivery_id : String
  lease_id : String
  backend_bot_id : String
  message : DiscordMessageRecord
  lease_expires_at : Int
deriving DecidableEq, Repr

/-- The lease selection query: deliveries of the backend in state PENDING,
ordered by `created_at`, limited to `limit` rows. -/
def selectPendingFifo (st : Store) (backend_bot_id : String)
    (limit : Nat) : List Delivery :=
  (List.insertionSort byCreatedAt
      (st.deliveries.filter fun d =>
        d.backend_bot_id == backend_bot_id && d.state == .pending)).take limit

/-- The per-row effect of the lease transition in
`_lease_messages_sync` (state LEASED, shared lease id and expiry,
`attempts += 1`). -/
def leaseRowUpdate (lease_id : String) (lease_expires_at : Int)
    (d : Delivery) : Delivery :=
  { d with state := .leased, lease_id := some lease_id,
           lease_expires_at := some lease_expires_at,
           attempts := d.attempts + 1 }

/-- `QueueService._lease_messages_sync`. The fresh UUID `lease_id` and the
clock `now` are parameters. Returns the committed store, the leased
records, and the conversation history. -/
def leaseMessagesSync (st : Store) (backend_bot_id : String) (limit : Nat)
    (lease_seconds : Int) (include_conversation_history : Bool)
    (conversation_history_limit : Nat) (now : Int) (lease_id : String) :
    Store × List LeasedDeliveryRecord × List DiscordMessageRecord :=
  let lease_expires_at := now + lease_seconds
  let deliveries := selectPendingFifo st backend_bot_id limit
  let leasedIds := deliveries.map (·.id)
  let st' := { st with deliveries := st.deliveries.map fun d =>
      if leasedIds.contains d.id then leaseRowUpdate lease_id lease_expires_at d
      else d }
  let leased_records := deliveries.map fun d =>
    { delivery_id := d.id
      lease_id := lease_id
      backend_bot_id := d.backend_bot_id
      message := (messageOf st d.discord_message_id).toRecord
      lease_expires_at := lease_expires_at : LeasedDeliveryRecord }
  let conversation_history :=
    match include_conversation_history, leased_records with
    | true, first :: _ =>
      -- `if channel_id:` — Python truthiness, so None and "" both skip
      match first.message.channel_id with
      | none => []
      | some ch =>
        if ch == "" then []
        else
          ((List.insertionSort byTimestampDesc
              (st.messages.filter fun m =>
                m.channel_id == some ch &&
                  m.timestamp ≤ first.message.timestamp)).take
            conversation_history_limit).reverse.map DiscordMessage.toRecord
    | _, _ => []
  (st', leased_records, conversation_history)

/-- **C2.** Lease selects up to `limit` PENDING deliveries of the backend
in ascending `created_at` order, transitions each to LEASED with the one
fresh `lease_id`, the one expiry `now + lease_seconds` and `attempts + 1`,
returns records that all carry that identical lease id and expiry, leaves
every other row unchanged, and returns an empty result (with the store
untouched) when no PENDING delivery exists. -/
theorem lease_fifo_uniform_stamp
    (st : Store) (b : String) (limit : Nat) (secs : Int)
    (hist : Bool) (hlim : Nat) (now : Int) (lid : String) :
    (leaseMessagesSync st b limit secs hist hlim now lid).2.1.length ≤ limit ∧
    (∀ r ∈ (leaseMessagesSync st b limit secs hist hlim now lid).2.1,
      r.lease_id = lid ∧ r.lease_expires_at = now + secs) ∧
    (∀ d ∈ selectPendingFifo st b limit,
      d ∈ st.deliveries ∧ d.backend_bot_id = b ∧ d.state = .pending) ∧
    List.Pairwise byCreatedAt (selectPendingFifo st b limit) ∧
    (leaseMessagesSync st b limit secs hist hlim now lid).2.1 =
      (selectPendingFifo st b limit).map (fun d =>
        { delivery_id := d.id, lease_id := lid,
          backend_bot_id := d.backend_bot_id,
          message := (messageOf st d.discord_message_id).toRecord,
          lease_expires_at := now + secs }) ∧
    (leaseMessagesSync st b limit secs hist hlim now lid).1.messages =
      st.messages ∧
    (leaseMessagesSync st b limit secs hist hlim now lid).1.nudges =
      st.nudges ∧
    (leaseMessagesSync st b limit secs hist hlim now lid).1.deliveries.length =
      st.deliveries.length ∧
    (∀ i (h : i < st.deliveries.length)
        (h2 : i < (leaseMessagesSync st b limit secs hist hlim now lid).1.deliveries.length),
      (leaseMessagesSync st b limit secs hist hlim now lid).1.deliveries.get ⟨i, h2⟩ =
        if ((selectPendingFifo st b limit).map (·.id)).contains
            (st.deliveries.get ⟨i, h⟩).id then
          leaseRowUpdate lid (now + secs) (st.deliveries.get ⟨i, h⟩)
        else st.deliveries.get ⟨i, h⟩) ∧
    ((st.deliveries.filter fun d => d.backend_bot_id == b && d.state == .pending) = [] →
      (leaseMessagesSync st b limit secs hist hlim now lid).2.1 = [] ∧
      (leaseMessagesSync st b limit secs hist hlim now lid).1 = st) := by
  refine ⟨?_, ?_, ?_, ?_, rfl, rfl, rfl, by simp [leaseMessagesSync], ?_, ?_⟩
  · show ((selectPendingFifo st b limit).map _).length ≤ limit
    simp [selectPendingFifo, List.length_take_le]
  · intro r hr
    obtain ⟨d, _, rfl⟩ := List.mem_map.mp hr
    exact ⟨rfl, rfl⟩
  · intro d hd
    have hd2 : d ∈ List.insertionSort byCreatedAt
        (st.deliveries.filter fun d =>
          d.backend_bot_id == b && d.state == .pending) :=
      (List.take_sublist _ _).mem hd
    have hd3 := (List.perm_insertionSort byCreatedAt _).mem_iff.mp hd2
    have hd4 := List.mem_filter.mp hd3
    refine ⟨hd4.1, ?_, ?_⟩
    · have := hd4.2
      simp only [Bool.and_eq_true, beq_iff_eq] at this
      exact this.1
    · have := hd4.2
      simp only [Bool.and_eq_true, beq_iff_eq] at this
      exact this.2
  · exact (List.sorted_insertionSort byCreatedAt _).sublist (List.take_sublist _ _)
  · intro i h h2
    show (st.deliveries.map _).get ⟨i, h2⟩ = _
    simp [List.get_eq_getElem, List.getElem_map]
  · intro hempty
    have hsel : selectPendingFifo st b limit = [] := by
      simp [selectPendingFifo, hempty]
    refine ⟨?_, ?_⟩
    · show (selectPendingFifo st b limit).map _ = []
      simp [hsel]
    · show ({ st with deliveries := st.deliveries.map _ } : Store) = st
      have : (st.deliveries.map fun d =>
          if ((selectPendingFifo st b limit).map (·.id)).contains d.id then
            leaseRowUpdate lid (now + secs) d
          else d) = st.deliveries := by
        simp [hsel]
      rw [this]

/-- Witness for C2: a store with one pending delivery for another backend
has no pending work for backend `"beta"`, so leasing returns nothing and
leaves the store unchanged. -/
theorem lease_fifo_uniform_stamp_witness :
    (leaseMessagesSync ⟨[], [⟨"v1", "m1", "alpha", .pending, none, none,
        none, 0, none, 0⟩], []⟩ "beta" 10 300 false 20 0 "L").2.1 = [] ∧
    (leaseMessagesSync ⟨[], [⟨"v1", "m1", "alpha", .pending, none, none,
        none, 0, none, 0⟩], []⟩ "beta" 10 300 false 20 0 "L").1 =
      ⟨[], [⟨"v1", "m1", "alpha", .pending, none, none, none, 0, none, 0⟩], []⟩ := by
  have h := lease_fifo_uniform_stamp
    ⟨[], [⟨"v1", "m1", "alpha", .pending, none, none, none, 0, none, 0⟩], []⟩
    "beta" 10 300 false 20 0 "L"
  exact h.2.2.2.2.2.2.2.2.2 (by decide)

/-! ## Ack / Nack / Reap / legacy fetch -/

/-- The shared selector of `_acknowledge_deliveries_sync` and
`_negative_acknowledge_deliveries_sync`: same backend, id among the given
`delivery_ids`, state LEASED and matching `lease_id`. -/
def ackSelector (backend_bot_id : String) (delivery_ids : List String)
    (lease_id : String) (d : Delivery) : Bool :=
  d.backend_bot_id == backend_bot_id && delivery_ids.contains d.id &&
    d.state == .leased && d.lease_id == some lease_id

/-- `QueueService._acknowledge_deliveries_sync`: matching deliveries become
DELIVERED with `delivered_at = now` (the lease fields are left as they
are); returns the number of rows transitioned. -/
def acknowledgeDeliveriesSync (st : Store) (backend_bot_id : String)
    (delivery_ids : List String) (lease_id : String) (now : Int) :
    Store × Nat :=
  ({ st with deliveries := st.deliveries.map fun d =>
      if ackSelector backend_bot_id delivery_ids lease_id d then
        { d with state := .delivered, delivered_at := some now }
      else d },
    (st.deliveries.filter (ackSelector backend_bot_id delivery_ids lease_id)).length)

/-- `QueueService._negative_acknowledge_deliveries_sync`: matching
deliveries return to PENDING with both lease fields cleared and
`last_error = reason`; returns the number of rows transitioned. -/
def negativeAcknowledgeDeliveriesSync (st : Store) (backend_bot_id : String)
    (delivery_ids : List String) (lease_id : String)
    (reason : Option String) : Store × Nat :=
  ({ st with deliveries := st.deliveries.map fun d =>
      if ackSelector backend_bot_id delivery_ids lease_id d then
        { d with state := .pending, lease_id := none,
                 lease_expires_at := none, last_error := reason }
      else d },
    (st.deliveries.filter (ackSelector backend_bot_id delivery_ids lease_id)).length)

/-- The reap selector: `state = LEASED ∧ lease_expires_at < now` (a NULL
expiry never compares, as in SQL). -/
def reapSelector (now : Int) (d : Delivery) : Bool :=
  d.state == .leased &&
    (match d.lease_expires_at with
     | some t => decide (t < now)
     | none => false)

/-- `QueueService._reap_expired_leases_sync`: expired leases return to
PENDING with lease fields cleared and `last_error = "Lease expired"`. -/
def reapExpiredLeasesSync (st : Store) (now : Int) : Store × Nat :=
  ({ st with deliveries := st.deliveries.map fun d =>
      if reapSelector now d then
        { d with state := .pending, lease_id := none,
                 lease_expires_at := none, last_error := some "Lease expired" }
      else d },
    (st.deliveries.filter (reapSelector now)).length)

/-- The `DeliveryRecord` dataclass of `queue.py`. -/
structure DeliveryRecord where
  delivery_id : String
  backend_bot_id : String
  message : DiscordMessageRecord
deriving DecidableEq, Repr

/-- `QueueService._fetch_and_mark_delivered_sync` (the legacy
`/v1/messages/pending` path): the same PENDING-FIFO selection as lease,
but rows go straight to DELIVERED with `delivered_at = now`. -/
def fetchAndMarkDeliveredSync (st : Store) (backend_bot_id : String)
    (limit : Nat) (now : Int) : Store × List DeliveryRecord :=
  let sel := selectPendingFifo st backend_bot_id limit
  let selIds := sel.map (·.id)
  ({ st with deliveries := st.deliveries.map fun d =>
      if selIds.contains d.id then
        { d with state := .delivered, delivered_at := some now }
      else d },
    sel.map fun d =>
      { delivery_id := d.id
        backend_bot_id := d.backend_bot_id
        message := (messageOf st d.discord_message_id).toRecord })

/-- **C6.** Ack and Nack touch exactly the deliveries matching the full
selector (backend, id among `delivery_ids`, state LEASED, given
`lease_id`): a row failing any part of the selector is left entirely
unchanged, a matching row makes exactly the documented transition, and the
returned count is the number of matching rows. -/
theorem ack_nack_touch_only_full_matches
    (st : Store) (b : String) (ids : List String) (lid : String)
    (now : Int) (reason : Option String) :
    (acknowledgeDeliveriesSync st b ids lid now).2 =
      (st.deliveries.filter (ackSelector b ids lid)).length ∧
    (negativeAcknowledgeDeliveriesSync st b ids lid reason).2 =
      (st.deliveries.filter (ackSelector b ids lid)).length ∧
    (acknowledgeDeliveriesSync st b ids lid now).1.messages = st.messages ∧
    (acknowledgeDeliveriesSync st b ids lid now).1.nudges = st.nudges ∧
    (negativeAcknowledgeDeliveriesSync st b ids lid reason).1.messages =
      st.messages ∧
    (negativeAcknowledgeDeliveriesSync st b ids lid reason).1.nudges =
      st.nudges ∧
    (acknowledgeDeliveriesSync st b ids lid now).1.deliveries.length =
      st.deliveries.length ∧
    (negativeAcknowledgeDeliveriesSync st b ids lid reason).1.deliveries.length =
      st.deliveries.length ∧
    (∀ i (h : i < st.deliveries.length)
        (h2 : i < (acknowledgeDeliveriesSync st b ids lid now).1.deliveries.length),
      (ackSelector b ids lid (st.deliveries.get ⟨i, h⟩) = false →
        (acknowledgeDeliveriesSync st b ids lid now).1.deliveries.get ⟨i, h2⟩ =
          st.deliveries.get ⟨i, h⟩) ∧
      (ackSelector b ids lid (st.deliveries.get ⟨i, h⟩) = true →
        (acknowledgeDeliveriesSync st b ids lid now).1.deliveries.get ⟨i, h2⟩ =
          { st.deliveries.get ⟨i, h⟩ with
              state := .delivered, delivered_at := some now })) ∧
    (∀ i (h : i < st.deliveries.length)
        (h2 : i <
          (negativeAcknowledgeDeliveriesSync st b ids lid reason).1.deliveries.length),
      (ackSelector b ids lid (st.deliveries.get ⟨i, h⟩) = false →
        (negativeAcknowledgeDeliveriesSync st b ids lid reason).1.deliveries.get
            ⟨i, h2⟩ = st.deliveries.get ⟨i, h⟩) ∧
      (ackSelector b ids lid (st.deliveries.get ⟨i, h⟩) = true →
        (negativeAcknowledgeDeliveriesSync st b ids lid reason).1.deliveries.get
            ⟨i, h2⟩ =
          { st.deliveries.get ⟨i, h⟩ with
              state := .pending, lease_id := none,
              lease_expires_at := none, last_error := reason })) := by
  refine ⟨rfl, rfl, rfl, rfl, rfl, rfl,
    by simp [acknowledgeDeliveriesSync],
    by simp [negativeAcknowledgeDeliveriesSync], ?_, ?_⟩
  · intro i h h2
    constructor
    · intro hsel
      simp only [List.get_eq_getElem] at hsel
      show (st.deliveries.map _).get ⟨i, h2⟩ = _
      simp [List.get_eq_getElem, List.getElem_map, hsel]
    · intro hsel
      simp only [List.get_eq_getElem] at hsel
      show (st.deliveries.map _).get ⟨i, h2⟩ = _
      simp [List.get_eq_getElem, List.getElem_map, hsel]
  · intro i h h2
    constructor
    · intro hsel
      simp only [List.get_eq_getElem] at hsel
      show (st.deliveries.map _).get ⟨i, h2⟩ = _
      simp [List.get_eq_getElem, List.getElem_map, hsel]
    · intro hsel
      simp only [List.get_eq_getElem] at hsel
      show (st.deliveries.map _).get ⟨i, h2⟩ = _
      simp [List.get_eq_getElem, List.getElem_map, hsel]

/-- Witness for C6: acking with the wrong lease id leaves a leased
delivery entirely unchanged and reports a count of zero. -/
theorem ack_nack_touch_only_full_matches_witness :
    (acknowledgeDeliveriesSync
        ⟨[], [⟨"v1", "m1", "alpha", .leased, none, some "L", some 300, 1,
            none, 0⟩], []⟩ "alpha" ["v1"] "WRONG" 7).2 = 0 ∧
    (acknowledgeDeliveriesSync
        ⟨[], [⟨"v1", "m1", "alpha", .leased, none, some "L", some 300, 1,
            none, 0⟩], []⟩ "alpha" ["v1"] "WRONG" 7).1.deliveries.get
        ⟨0, by decide⟩ =
      ⟨"v1", "m1", "alpha", .leased, none, some "L", some 300, 1, none, 0⟩ := by
  have h := ack_nack_touch_only_full_matches
    ⟨[], [⟨"v1", "m1", "alpha", .leased, none, some "L", some 300, 1, none, 0⟩], []⟩
    "alpha" ["v1"] "WRONG" 7 none
  refine ⟨by rw [h.1]; decide, ?_⟩
  have h9 := (h.2.2.2.2.2.2.2.2.1 0 (by decide) (by decide)).1 (by decide)
  simpa using h9

/-! ## C3: the lease-field / state invariant -/

/-- **C3 (counterexample).** The biconditional
`state = LEASED ⇔ lease_id ≠ NULL ∧ lease_expires_at ≠ NULL` does not
survive an Ack: enqueue one message, lease it, then acknowledge it —
`_acknowledge_deliveries_sync` sets the state to DELIVERED but leaves both
lease fields populated. -/
theorem lease_state_biconditional_cex :
    ∃ d ∈ (acknowledgeDeliveriesSync
        (leaseMessagesSync
          (enqueueMessageSync ⟨[], [], []⟩ "alpha"
            ⟨"1", "d", "u", "U", none, none, true, "hi", 0⟩ "d:1" "m1" "v1" 0).1
          "alpha" 10 300 false 20 0 "L").1
        "alpha" ["v1"] "L" 1).1.deliveries,
      d.state ≠ DeliveryState.leased ∧ d.lease_id ≠ none ∧
        d.lease_expires_at ≠ none := by
  decide

/-- The per-row part of the invariant that does hold: a LEASED row has
both lease fields populated, and a PENDING row has both cleared. -/
def rowLeaseWF (d : Delivery) : Prop :=
  (d.state = .leased → d.lease_id ≠ none ∧ d.lease_expires_at ≠ none) ∧
  (d.state = .pending → d.lease_id = none ∧ d.lease_expires_at = none)

instance (d : Delivery) : Decidable (rowLeaseWF d) := by
  unfold rowLeaseWF; infer_instance

/-- The amended store invariant: every delivery row satisfies
`rowLeaseWF` (DELIVERED rows may retain their lease fields). -/
def leaseFieldsWF (st : Store) : Prop :=
  ∀ d ∈ st.deliveries, rowLeaseWF d

instance (st : Store) : Decidable (leaseFieldsWF st) := by
  unfold leaseFieldsWF; infer_instance

/-- Rows produced by a conditional update stay well formed when the
update's result is always well formed. -/
theorem rowLeaseWF_map_if {l : List Delivery} (h : ∀ d ∈ l, rowLeaseWF d)
    (p : Delivery → Bool) (f : Delivery → Delivery)
    (hf : ∀ d, rowLeaseWF (f d)) :
    ∀ d ∈ l.map (fun d => if p d then f d else d), rowLeaseWF d := by
  intro d hd
  obtain ⟨d0, hd0, rfl⟩ := List.mem_map.mp hd
  by_cases hp : p d0
  · simpa [hp] using hf d0
  · simpa [hp] using h d0 hd0

/-- **C3 (amended).** After any of the six queue operations, a LEASED
delivery has both `lease_id` and `lease_expires_at` set and a PENDING
delivery has both cleared; a DELIVERED row, however, may retain its lease
fields (Ack does not clear them), so only this weakening of the spec's
biconditional is invariant. -/
theorem lease_fields_wf_preserved
    (st : Store) (hwf : leaseFieldsWF st)
    (b dk lid mid vid : String) (p : DiscordMessageRecord)
    (ids : List String) (reason : Option String)
    (limit hlim : Nat) (secs now : Int) (hist : Bool) :
    leaseFieldsWF (enqueueMessageSync st b p dk mid vid now).1 ∧
    leaseFieldsWF (leaseMessagesSync st b limit secs hist hlim now lid).1 ∧
    leaseFieldsWF (acknowledgeDeliveriesSync st b ids lid now).1 ∧
    leaseFieldsWF (negativeAcknowledgeDeliveriesSync st b ids lid reason).1 ∧
    leaseFieldsWF (reapExpiredLeasesSync st now).1 ∧
    leaseFieldsWF (fetchAndMarkDeliveredSync st b limit now).1 := by
  refine ⟨?_, ?_, ?_, ?_, ?_, ?_⟩
  · unfold enqueueMessageSync
    split
    · exact hwf
    · intro d hd
      rcases List.mem_append.mp hd with hmem | hnew
      · exact hwf d hmem
      · have : d = mkEnqueuedDelivery b mid vid now := by simpa using hnew
        subst this
        exact ⟨by simp [mkEnqueuedDelivery], by simp [mkEnqueuedDelivery]⟩
  · exact rowLeaseWF_map_if hwf _ _
      (fun d => ⟨fun _ => by simp [leaseRowUpdate], by simp [leaseRowUpdate]⟩)
  · exact rowLeaseWF_map_if hwf _ _ (fun d => ⟨by simp, by simp⟩)
  · exact rowLeaseWF_map_if hwf _ _ (fun d => ⟨by simp, fun _ => by simp⟩)
  · exact rowLeaseWF_map_if hwf _ _ (fun d => ⟨by simp, fun _ => by simp⟩)
  · exact rowLeaseWF_map_if hwf _ _ (fun d => ⟨by simp, by simp⟩)

/-- Witness for the amended C3: the invariant holds of a singleton leased
store and survives a concrete run of all six operations. -/
theorem lease_fields_wf_preserved_witness :
    leaseFieldsWF (acknowledgeDeliveriesSync
      ⟨[], [⟨"v1", "m1", "alpha", .leased, none, some "L", some 300, 1,
          none, 0⟩], []⟩ "alpha" ["v1"] "L" 7).1 := by
  have h := lease_fields_wf_preserved
    ⟨[], [⟨"v1", "m1", "alpha", .leased, none, some "L", some 300, 1, none, 0⟩], []⟩
    (by decide) "alpha" "d:1" "L" "m2" "v2"
    ⟨"1", "d", "u", "U", none, none, true, "hi", 0⟩ ["v1"] none 10 20 300 7 false
  exact h.2.2.1

/-! ## C4: conversation history on lease -/

/-- History as the claim words it: if at least one leased message has a
non-null `channel_id`, return up to `hlim` messages of that channel with
timestamp at most the first leased message's timestamp, most recent first,
reversed to chronological order. -/
def historyPerClaimC4 (st : Store) (leased : List LeasedDeliveryRecord)
    (hlim : Nat) : List DiscordMessageRecord :=
  match leased, leased.find? (fun r => r.message.channel_id.isSome) with
  | first :: _, some rch =>
    match rch.message.channel_id with
    | some ch =>
      ((List.insertionSort byTimestampDesc
          (st.messages.filter fun m =>
            m.channel_id == some ch &&
              m.timestamp ≤ first.message.timestamp)).take hlim).reverse.map
        DiscordMessage.toRecord
    | none => []
  | _, _ => []

/-- History as the code computes it: driven solely by the *first* leased
record's channel, with Python truthiness (`None` and `""` both mean no
channel). -/
def historyByFirstLeased (st : Store) (leased : List LeasedDeliveryRecord)
    (hlim : Nat) : List DiscordMessageRecord :=
  match leased with
  | [] => []
  | first :: _ =>
    match first.message.channel_id with
    | none => []
    | some ch =>
      if ch == "" then []
      else
        ((List.insertionSort byTimestampDesc
            (st.messages.filter fun m =>
              m.channel_id == some ch &&
                m.timestamp ≤ first.message.timestamp)).take hlim).reverse.map
          DiscordMessage.toRecord

/-- A two-message store whose earliest pending delivery is a DM (no
channel) while the second leased message does have a channel with history
available. -/
def storeC4 : Store :=
  ⟨[⟨"m1", "d", "1", "u", "U", none, none, true, "a", 5, "d:1", 0⟩,
    ⟨"m2", "d", "2", "u", "U", some "c", none, false, "b", 3, "d:2", 1⟩],
   [⟨"v1", "m1", "alpha", .pending, none, none, none, 0, none, 0⟩,
    ⟨"v2", "m2", "alpha", .pending, none, none, none, 0, none, 1⟩],
   []⟩

/-- **C4 (counterexample).** Leasing both deliveries of `storeC4` with
history requested: the second leased message has channel `"c"` (and that
channel has a qualifying message), yet the code returns an empty history,
because only the first leased message's channel is consulted. -/
theorem lease_history_any_leased_channel_cex :
    (∃ r ∈ (leaseMessagesSync storeC4 "alpha" 10 300 true 20 9 "L").2.1,
      r.message.channel_id ≠ none) ∧
    historyPerClaimC4 storeC4
      (leaseMessagesSync storeC4 "alpha" 10 300 true 20 9 "L").2.1 20 ≠ [] ∧
    (leaseMessagesSync storeC4 "alpha" 10 300 true 20 9 "L").2.2 = [] := by
  decide

/-- The history component of `_lease_messages_sync` is exactly
`historyByFirstLeased` when history is requested, else empty. -/
theorem lease_history_eq (st : Store) (b : String) (limit : Nat)
    (secs : Int) (hist : Bool) (hlim : Nat) (now : Int) (lid : String) :
    (leaseMessagesSync st b limit secs hist hlim now lid).2.2 =
      if hist then
        historyByFirstLeased st
          (leaseMessagesSync st b limit secs hist hlim now lid).2.1 hlim
      else [] := by
  cases hsel : selectPendingFifo st b limit with
  | nil => cases hist <;> simp [leaseMessagesSync, hsel, historyByFirstLeased]
  | cons d ds => cases hist <;> simp [leaseMessagesSync, hsel, historyByFirstLeased]

/-- **C4 (amended).** The history of a lease call equals
`historyByFirstLeased`: it is empty unless history was requested and the
*first* leased message carries a non-null, non-empty `channel_id` `ch`;
in that case it holds up to `history_limit` messages, all from channel
`ch` with timestamp at most the first leased message's timestamp, in
chronological order, drawn from the whole message table with no filtering
by delivery state or backend (whenever the channel has at most
`history_limit` qualifying messages, every one of them appears). -/
theorem lease_history_follows_first_leased
    (st : Store) (b : String) (limit : Nat) (secs : Int)
    (hlim : Nat) (now : Int) (lid : String) :
    (leaseMessagesSync st b limit secs true hlim now lid).2.2 =
      historyByFirstLeased st
        (leaseMessagesSync st b limit secs true hlim now lid).2.1 hlim ∧
    (leaseMessagesSync st b limit secs false hlim now lid).2.2 = [] ∧
    (∀ first rest ch,
      (leaseMessagesSync st b limit secs true hlim now lid).2.1 = first :: rest →
      first.message.channel_id = some ch → ch ≠ "" →
      ((leaseMessagesSync st b limit secs true hlim now lid).2.2.length ≤ hlim ∧
       (∀ m ∈ (leaseMessagesSync st b limit secs true hlim now lid).2.2,
         m.channel_id = some ch ∧ m.timestamp ≤ first.message.timestamp) ∧
       List.Pairwise (fun x y : DiscordMessageRecord => x.timestamp ≤ y.timestamp)
         (leaseMessagesSync st b limit secs true hlim now lid).2.2 ∧
       ((st.messages.filter fun m =>
           m.channel_id == some ch &&
             m.timestamp ≤ first.message.timestamp).length ≤ hlim →
        ∀ m ∈ st.messages, m.channel_id = some ch →
          m.timestamp ≤ first.message.timestamp →
          m.toRecord ∈ (leaseMessagesSync st b limit secs true hlim now lid).2.2))) := by
  refine ⟨by rw [lease_history_eq]; simp, by rw [lease_history_eq]; simp, ?_⟩
  · intro first rest ch hleased hch hne
    have hhist :
        (leaseMessagesSync st b limit secs true hlim now lid).2.2 =
          ((List.insertionSort byTimestampDesc
              (st.messages.filter fun m =>
                m.channel_id == some ch &&
                  m.timestamp ≤ first.message.timestamp)).take hlim).reverse.map
            DiscordMessage.toRecord := by
      rw [lease_history_eq, if_pos rfl, hleased]
      simp [historyByFirstLeased, hch, hne]
    refine ⟨?_, ?_, ?_, ?_⟩
    · rw [hhist]
      simp [List.length_take_le]
    · intro m hm
      rw [hhist] at hm
      obtain ⟨m0, hm0, rfl⟩ := List.mem_map.mp hm
      have hm1 := List.mem_reverse.mp hm0
      have hm2 := (List.take_sublist _ _).mem hm1
      have hm3 := (List.perm_insertionSort byTimestampDesc _).mem_iff.mp hm2
      have hm4 := (List.mem_filter.mp hm3).2
      simp only [Bool.and_eq_true, beq_iff_eq, decide_eq_true_eq] at hm4
      exact ⟨by simp [DiscordMessage.toRecord, hm4.1], by
        simp [DiscordMessage.toRecord, hm4.2]⟩
    · rw [hhist]
      rw [List.pairwise_map]
      rw [List.pairwise_reverse]
      exact ((List.sorted_insertionSort byTimestampDesc _).sublist
        (List.take_sublist _ _)).imp fun hxy => hxy
    · intro hlen m hm hchm hts
      rw [hhist]
      have hfilt : m ∈ st.messages.filter fun m =>
          m.channel_id == some ch && m.timestamp ≤ first.message.timestamp := by
        refine List.mem_filter.mpr ⟨hm, ?_⟩
        simp [hchm, hts]
      have hsort : m ∈ List.insertionSort byTimestampDesc
          (st.messages.filter fun m =>
            m.channel_id == some ch && m.timestamp ≤ first.message.timestamp) :=
        (List.perm_insertionSort byTimestampDesc _).mem_iff.mpr hfilt
      have htake : m ∈ (List.insertionSort byTimestampDesc
          (st.messages.filter fun m =>
            m.channel_id == some ch &&
              m.timestamp ≤ first.message.timestamp)).take hlim := by
        rw [List.take_of_length_le]
        · exact hsort
        · rw [List.length_insertionSort]
          exact hlen
      exact List.mem_map.mpr ⟨m, List.mem_reverse.mpr htake, rfl⟩

/-- Witness for the amended C4: a single leased channel message yields
itself as its one-element chronological history. -/
theorem lease_history_follows_first_leased_witness :
    (leaseMessagesSync
      ⟨[⟨"m2", "d", "2", "u", "U", some "c", none, false, "b", 3, "d:2", 1⟩],
       [⟨"v2", "m2", "alpha", .pending, none, none, none, 0, none, 1⟩],
       []⟩ "alpha" 10 300 true 20 9 "L").2.2 =
      [⟨"2", "d", "u", "U", some "c", none, false, "b", 3⟩] := by
  have h := lease_history_follows_first_leased
    ⟨[⟨"m2", "d", "2", "u", "U", some "c", none, false, "b", 3, "d:2", 1⟩],
     [⟨"v2", "m2", "alpha", .pending, none, none, none, 0, none, 1⟩],
     []⟩ "alpha" 10 300 20 9 "L"
  rw [h.1]
  decide

/-! ## C5: routing table construction (`routing.RoutingTable.__init__`) -/

/-- The three route scope types admitted by `RouteConfig` validation. -/
inductive RouteScope where
  | dm_user
  | channel
  | guild
deriving DecidableEq, Repr

/-- A `RouteConfig` entry. -/
structure RouteConfig where
  discord_bot_id : String
  scope_type : RouteScope
  scope_id : String
  backend_bot_id : String
deriving DecidableEq, Repr

/-- The slice of `AppConfig` consulted by `RoutingTable.__init__`: the
configured bot id sets, the `routes` list, and the `routing.defaults`
table (a dict, modelled as its key-ordered pair list). -/
structure RoutingAppConfig where
  discord_bot_ids : List String
  backend_bot_ids : List String
  routes : List RouteConfig
  defaults : List (String × String)
deriving DecidableEq, Repr

/-- One scope table (`_dm_routes` / `_channel_routes` / `_guild_routes`
flattened): `(discord_bot_id, scope_id) ↦ backend_bot_id`. -/
abbrev ScopeTable := List ((String × String) × String)

/-- `route.scope_id in table` for the per-bot dict of one scope type. -/
def tableKeyMem (tbl : ScopeTable) (bot sid : String) : Bool :=
  tbl.any fun e => e.1.1 == bot && e.1.2 == sid

/-- The route-processing loop of `RoutingTable.__init__`: check the
discord id, then the backend id, pick the table for the scope type, fail
on a duplicate `(bot, scope_id)` key, else record the route. -/
def buildRouteTables (vd vb : List String) :
    List RouteConfig → ScopeTable → ScopeTable → ScopeTable →
    Except String (ScopeTable × ScopeTable × ScopeTable)
  | [], dm, ch, gu => .ok (dm, ch, gu)
  | r :: rs, dm, ch, gu =>
    if !vd.contains r.discord_bot_id then
      .error ("Route references unknown discord_bot_id " ++ r.discord_bot_id)
    else if !vb.contains r.backend_bot_id then
      .error ("Route references unknown backend_bot_id " ++ r.backend_bot_id)
    else
      match r.scope_type with
      | .dm_user =>
        if tableKeyMem dm r.discord_bot_id r.scope_id then
          .error ("Multiple routes defined for dm_user " ++ r.scope_id)
        else
          buildRouteTables vd vb rs
            (dm ++ [((r.discord_bot_id, r.scope_id), r.backend_bot_id)]) ch gu
      | .channel =>
        if tableKeyMem ch r.discord_bot_id r.scope_id then
          .error ("Multiple routes defined for channel " ++ r.scope_id)
        else
          buildRouteTables vd vb rs dm
            (ch ++ [((r.discord_bot_id, r.scope_id), r.backend_bot_id)]) gu
      | .guild =>
        if tableKeyMem gu r.discord_bot_id r.scope_id then
          .error ("Multiple routes defined for guild " ++ r.scope_id)
        else
          buildRouteTables vd vb rs dm ch
            (gu ++ [((r.discord_bot_id, r.scope_id), r.backend_bot_id)])

/-- The defaults-validation loop of `RoutingTable.__init__`: every key of
`routing.defaults` must be a configured discord bot id (values are not
inspected). -/
def checkDefaultKeys (vd : List String) :
    List (String × String) → Except String Unit
  | [] => .ok ()
  | e :: es =>
    if !vd.contains e.1 then
      .error ("Default route references unknown discord bot " ++ e.1)
    else checkDefaultKeys vd es

/-- The constructed routing state. -/
structure RoutingTables where
  dm_routes : ScopeTable
  channel_routes : ScopeTable
  guild_routes : ScopeTable
  defaults : List (String × String)
deriving DecidableEq

/-- `RoutingTable.__init__`: build the three scope tables over the routes,
then validate the default-table keys. -/
def routingTableInit (cfg : RoutingAppConfig) : Except String RoutingTables :=
  match buildRouteTables cfg.discord_bot_ids cfg.backend_bot_ids cfg.routes
      [] [] [] with
  | .error e => .error e
  | .ok (dm, ch, gu) =>
    match checkDefaultKeys cfg.discord_bot_ids cfg.defaults with
    | .error e => .error e
    | .ok _ => .ok ⟨dm, ch, gu, cfg.defaults⟩

/-- Did construction succeed? -/
def exceptIsOk {α : Type _} : Except String α → Bool
  | .ok _ => true
  | .error _ => false

/-- The key under which a route is registered: its scope type plus the
`(discord_bot_id, scope_id)` pair. -/
def routeKey (r : RouteConfig) : RouteScope × String × String :=
  (r.scope_type, r.discord_bot_id, r.scope_id)

/-- Key membership across the three accumulated tables. -/
def tablesHaveKey (dm ch gu : ScopeTable) : RouteScope × String × String → Bool
  | (.dm_user, bot, sid) => tableKeyMem dm bot sid
  | (.channel, bot, sid) => tableKeyMem ch bot sid
  | (.guild, bot, sid) => tableKeyMem gu bot sid

theorem tableKeyMem_append (tbl : ScopeTable) (bot sid be b' s' : String) :
    tableKeyMem (tbl ++ [((bot, sid), be)]) b' s' = true ↔
      (tableKeyMem tbl b' s' = true ∨ (b' = bot ∧ s' = sid)) := by
  simp only [tableKeyMem, List.any_append, Bool.or_eq_true, List.any_cons,
    List.any_nil, Bool.and_eq_true, beq_iff_eq, Bool.or_false]
  constructor
  · rintro (h | ⟨rfl, rfl⟩)
    · exact Or.inl h
    · exact Or.inr ⟨rfl, rfl⟩
  · rintro (h | ⟨rfl, rfl⟩)
    · exact Or.inl h
    · exact Or.inr ⟨rfl, rfl⟩

theorem tablesHaveKey_append_dm (dm ch gu : ScopeTable) (bot sid be : String)
    (k : RouteScope × String × String) :
    tablesHaveKey (dm ++ [((bot, sid), be)]) ch gu k = true ↔
      (tablesHaveKey dm ch gu k = true ∨ k = (.dm_user, bot, sid)) := by
  rcases k with ⟨s, b', s'⟩
  cases s <;> simp [tablesHaveKey, tableKeyMem_append, Prod.mk.injEq]

theorem tablesHaveKey_append_ch (dm ch gu : ScopeTable) (bot sid be : String)
    (k : RouteScope × String × String) :
    tablesHaveKey dm (ch ++ [((bot, sid), be)]) gu k = true ↔
      (tablesHaveKey dm ch gu k = true ∨ k = (.channel, bot, sid)) := by
  rcases k with ⟨s, b', s'⟩
  cases s <;> simp [tablesHaveKey, tableKeyMem_append, Prod.mk.injEq]

theorem tablesHaveKey_append_gu (dm ch gu : ScopeTable) (bot sid be : String)
    (k : RouteScope × String × String) :
    tablesHaveKey dm ch (gu ++ [((bot, sid), be)]) k = true ↔
      (tablesHaveKey dm ch gu k = true ∨ k = (.guild, bot, sid)) := by
  rcases k with ⟨s, b', s'⟩
  cases s <;> simp [tablesHaveKey, tableKeyMem_append, Prod.mk.injEq]

/-- Success characterization of the route loop, for arbitrary accumulated
tables. -/
theorem buildRouteTables_ok_iff (vd vb : List String) :
    ∀ (rs : List RouteConfig) (dm ch gu : ScopeTable),
    exceptIsOk (buildRouteTables vd vb rs dm ch gu) = true ↔
      ((∀ r ∈ rs, vd.contains r.discord_bot_id = true ∧
          vb.contains r.backend_bot_id = true) ∧
       List.Pairwise (fun r1 r2 => routeKey r1 ≠ routeKey r2) rs ∧
       (∀ r ∈ rs, ¬ tablesHaveKey dm ch gu (routeKey r) = true))
  | [], dm, ch, gu => by simp [buildRouteTables, exceptIsOk]
  | r :: rs, dm, ch, gu => by
    rcases r with ⟨rbot, rscope, rsid, rbe⟩
    by_cases hd : vd.contains rbot = true
    case neg =>
      have hd0 : vd.contains rbot = false := by
        revert hd; cases vd.contains rbot <;> simp
      rw [show buildRouteTables vd vb (⟨rbot, rscope, rsid, rbe⟩ :: rs) dm ch gu =
          .error ("Route references unknown discord_bot_id " ++ rbot) by
        simp [buildRouteTables, (show rbot ∉ vd by simpa using hd0)]]
      simp only [exceptIsOk, Bool.false_eq_true, false_iff]
      rintro ⟨h1, -, -⟩
      exact absurd (h1 _ (List.mem_cons_self _ _)).1 hd
    case pos =>
    by_cases hb : vb.contains rbe = true
    case neg =>
      have hb0 : vb.contains rbe = false := by
        revert hb; cases vb.contains rbe <;> simp
      rw [show buildRouteTables vd vb (⟨rbot, rscope, rsid, rbe⟩ :: rs) dm ch gu =
          .error ("Route references unknown backend_bot_id " ++ rbe) by
        simp [buildRouteTables, (show rbot ∈ vd by simpa using hd),
          (show rbe ∉ vb by simpa using hb0)]]
      simp only [exceptIsOk, Bool.false_eq_true, false_iff]
      rintro ⟨h1, -, -⟩
      exact absurd (h1 _ (List.mem_cons_self _ _)).2 hb
    case pos =>
    cases rscope with
    | dm_user =>
      by_cases hdup : tableKeyMem dm rbot rsid = true
      case pos =>
        rw [show buildRouteTables vd vb (⟨rbot, .dm_user, rsid, rbe⟩ :: rs) dm ch gu =
            .error ("Multiple routes defined for dm_user " ++ rsid) by
          simp [buildRouteTables, (show rbot ∈ vd by simpa using hd),
            (show rbe ∈ vb by simpa using hb), hdup]]
        simp only [exceptIsOk, Bool.false_eq_true, false_iff]
        rintro ⟨-, -, h3⟩
        exact h3 _ (List.mem_cons_self _ _)
          (by simpa [tablesHaveKey, routeKey] using hdup)
      case neg =>
        rw [show buildRouteTables vd vb (⟨rbot, .dm_user, rsid, rbe⟩ :: rs) dm ch gu =
            buildRouteTables vd vb rs (dm ++ [((rbot, rsid), rbe)]) ch gu by
          simp [buildRouteTables, (show rbot ∈ vd by simpa using hd),
            (show rbe ∈ vb by simpa using hb), hdup]]
        rw [buildRouteTables_ok_iff vd vb rs]
        constructor
        · rintro ⟨h1, h2, h3⟩
          refine ⟨?_, ?_, ?_⟩
          · intro x hx
            rcases List.mem_cons.mp hx with rfl | hx
            · exact ⟨hd, hb⟩
            · exact h1 x hx
          · refine List.pairwise_cons.mpr ⟨?_, h2⟩
            intro x hx heq
            exact h3 x hx ((tablesHaveKey_append_dm dm ch gu rbot rsid rbe _).mpr
              (Or.inr (by rw [← heq]; simp [routeKey])))
          · intro x hx
            rcases List.mem_cons.mp hx with rfl | hx
            · simpa [tablesHaveKey, routeKey] using hdup
            · intro hk
              exact h3 x hx ((tablesHaveKey_append_dm dm ch gu rbot rsid rbe _).mpr
                (Or.inl hk))
        · rintro ⟨h1, h2, h3⟩
          obtain ⟨hnew, h2s⟩ := List.pairwise_cons.mp h2
          refine ⟨fun x hx => h1 x (List.mem_cons_of_mem _ hx), h2s, ?_⟩
          intro x hx hk
          rcases (tablesHaveKey_append_dm dm ch gu rbot rsid rbe _).mp hk with
            hold | hnewk
          · exact h3 x (List.mem_cons_of_mem _ hx) hold
          · exact hnew x hx hnewk.symm
    | channel =>
      by_cases hdup : tableKeyMem ch rbot rsid = true
      case pos =>
        rw [show buildRouteTables vd vb (⟨rbot, .channel, rsid, rbe⟩ :: rs) dm ch gu =
            .error ("Multiple routes defined for channel " ++ rsid) by
          simp [buildRouteTables, (show rbot ∈ vd by simpa using hd),
            (show rbe ∈ vb by simpa using hb), hdup]]
        simp only [exceptIsOk, Bool.false_eq_true, false_iff]
        rintro ⟨-, -, h3⟩
        exact h3 _ (List.mem_cons_self _ _)
          (by simpa [tablesHaveKey, routeKey] using hdup)
      case neg =>
        rw [show buildRouteTables vd vb (⟨rbot, .channel, rsid, rbe⟩ :: rs) dm ch gu =
            buildRouteTables vd vb rs dm (ch ++ [((rbot, rsid), rbe)]) gu by
          simp [buildRouteTables, (show rbot ∈ vd by simpa using hd),
            (show rbe ∈ vb by simpa using hb), hdup]]
        rw [buildRouteTables_ok_iff vd vb rs]
        constructor
        · rintro ⟨h1, h2, h3⟩
          refine ⟨?_, ?_, ?_⟩
          · intro x hx
            rcases List.mem_cons.mp hx with rfl | hx
            · exact ⟨hd, hb⟩
            · exact h1 x hx
          · refine List.pairwise_cons.mpr ⟨?_, h2⟩
            intro x hx heq
            exact h3 x hx ((tablesHaveKey_append_ch dm ch gu rbot rsid rbe _).mpr
              (Or.inr (by rw [← heq]; simp [routeKey])))
          · intro x hx
            rcases List.mem_cons.mp hx with rfl | hx
            · simpa [tablesHaveKey, routeKey] using hdup
            · intro hk
              exact h3 x hx ((tablesHaveKey_append_ch dm ch gu rbot rsid rbe _).mpr
                (Or.inl hk))
        · rintro ⟨h1, h2, h3⟩
          obtain ⟨hnew, h2s⟩ := List.pairwise_cons.mp h2
          refine ⟨fun x hx => h1 x (List.mem_cons_of_mem _ hx), h2s, ?_⟩
          intro x hx hk
          rcases (tablesHaveKey_append_ch dm ch gu rbot rsid rbe _).mp hk with
            hold | hnewk
          · exact h3 x (List.mem_cons_of_mem _ hx) hold
          · exact hnew x hx hnewk.symm
    | guild =>
      by_cases hdup : tableKeyMem gu rbot rsid = true
      case pos =>
        rw [show buildRouteTables vd vb (⟨rbot, .guild, rsid, rbe⟩ :: rs) dm ch gu =
            .error ("Multiple routes defined for guild " ++ rsid) by
          simp [buildRouteTables, (show rbot ∈ vd by simpa using hd),
            (show rbe ∈ vb by simpa using hb), hdup]]
        simp only [exceptIsOk, Bool.false_eq_true, false_iff]
        rintro ⟨-, -, h3⟩
        exact h3 _ (List.mem_cons_self _ _)
          (by simpa [tablesHaveKey, routeKey] using hdup)
      case neg =>
        rw [show buildRouteTables vd vb (⟨rbot, .guild, rsid, rbe⟩ :: rs) dm ch gu =
            buildRouteTables vd vb rs dm ch (gu ++ [((rbot, rsid), rbe)]) by
          simp [buildRouteTables, (show rbot ∈ vd by simpa using hd),
            (show rbe ∈ vb by simpa using hb), hdup]]
        rw [buildRouteTables_ok_iff vd vb rs]
        constructor
        · rintro ⟨h1, h2, h3⟩
          refine ⟨?_, ?_, ?_⟩
          · intro x hx
            rcases List.mem_cons.mp hx with rfl | hx
            · exact ⟨hd, hb⟩
            · exact h1 x hx
          · refine List.pairwise_cons.mpr ⟨?_, h2⟩
            intro x hx heq
            exact h3 x hx ((tablesHaveKey_append_gu dm ch gu rbot rsid rbe _).mpr
              (Or.inr (by rw [← heq]; simp [routeKey])))
          · intro x hx
            rcases List.mem_cons.mp hx with rfl | hx
            · simpa [tablesHaveKey, routeKey] using hdup
            · intro hk
              exact h3 x hx ((tablesHaveKey_append_gu dm ch gu rbot rsid rbe _).mpr
                (Or.inl hk))
        · rintro ⟨h1, h2, h3⟩
          obtain ⟨hnew, h2s⟩ := List.pairwise_cons.mp h2
          refine ⟨fun x hx => h1 x (List.mem_cons_of_mem _ hx), h2s, ?_⟩
          intro x hx hk
          rcases (tablesHaveKey_append_gu dm ch gu rbot rsid rbe _).mp hk with
            hold | hnewk
          · exact h3 x (List.mem_cons_of_mem _ hx) hold
          · exact hnew x hx hnewk.symm

theorem checkDefaultKeys_ok_iff (vd : List String) :
    ∀ ds : List (String × String),
    exceptIsOk (checkDefaultKeys vd ds) = true ↔
      ∀ e ∈ ds, vd.contains e.1 = true
  | [] => by simp [checkDefaultKeys, exceptIsOk]
  | e :: es => by
    by_cases hk : vd.contains e.1 = true
    case pos =>
      rw [show checkDefaultKeys vd (e :: es) = checkDefaultKeys vd es by
        simp [checkDefaultKeys, (show e.1 ∈ vd by simpa using hk)]]
      rw [checkDefaultKeys_ok_iff vd es]
      constructor
      · intro h x hx
        rcases List.mem_cons.mp hx with rfl | hx
        · exact hk
        · exact h x hx
      · intro h x hx
        exact h x (List.mem_cons_of_mem _ hx)
    case neg =>
      have hk0 : vd.contains e.1 = false := by
        revert hk; cases vd.contains e.1 <;> simp
      rw [show checkDefaultKeys vd (e :: es) =
          .error ("Default route references unknown discord bot " ++ e.1) by
        simp [checkDefaultKeys, (show e.1 ∉ vd by simpa using hk0)]]
      simp only [exceptIsOk, Bool.false_eq_true, false_iff]
      intro h
      exact hk (h e (List.mem_cons_self _ _))

theorem tablesHaveKey_nil (k : RouteScope × String × String) :
    tablesHaveKey [] [] [] k = false := by
  rcases k with ⟨s, b, si⟩
  cases s <;> rfl

/-- **C5 (amended).** `RoutingTable.__init__` fails with `ConfigError`
exactly when some route references an unknown discord or backend id, two
routes share a `(scope_type, scope_id)` key under one discord bot, or a
default-table *key* is an unknown discord bot id. Default-table *values*
(backend ids) are never validated. -/
theorem routing_init_ok_iff (cfg : RoutingAppConfig) :
    exceptIsOk (routingTableInit cfg) = true ↔
      ((∀ r ∈ cfg.routes,
          cfg.discord_bot_ids.contains r.discord_bot_id = true ∧
          cfg.backend_bot_ids.contains r.backend_bot_id = true) ∧
       List.Pairwise (fun r1 r2 => routeKey r1 ≠ routeKey r2) cfg.routes ∧
       (∀ e ∈ cfg.defaults, cfg.discord_bot_ids.contains e.1 = true)) := by
  have hb := buildRouteTables_ok_iff cfg.discord_bot_ids cfg.backend_bot_ids
    cfg.routes [] [] []
  have hc := checkDefaultKeys_ok_iff cfg.discord_bot_ids cfg.defaults
  unfold routingTableInit
  cases hbuild : buildRouteTables cfg.discord_bot_ids cfg.backend_bot_ids
      cfg.routes [] [] [] with
  | error e =>
    rw [hbuild] at hb
    simp only [exceptIsOk, Bool.false_eq_true, false_iff] at hb ⊢
    rintro ⟨h1, h2, -⟩
    exact hb ⟨h1, h2, fun r _ => by simp [tablesHaveKey_nil]⟩
  | ok t =>
    rcases t with ⟨dm, ch, gu⟩
    rw [hbuild] at hb
    simp only [exceptIsOk, true_iff] at hb
    cases hchk : checkDefaultKeys cfg.discord_bot_ids cfg.defaults with
    | error e =>
      rw [hchk] at hc
      simp only [exceptIsOk, Bool.false_eq_true, false_iff] at hc ⊢
      rintro ⟨-, -, h3⟩
      exact hc h3
    | ok u =>
      rw [hchk] at hc
      simp only [exceptIsOk, true_iff] at hc ⊢
      exact ⟨hb.1, hb.2.1, hc⟩

/-- Witness for the amended C5: a well-formed one-route config (whose
defaults key is known) constructs successfully. -/
theorem routing_init_ok_iff_witness :
    exceptIsOk (routingTableInit
      ⟨["d1"], ["alpha"], [⟨"d1", .channel, "123", "alpha"⟩],
       [("d1", "alpha")]⟩) = true := by
  exact (routing_init_ok_iff
    ⟨["d1"], ["alpha"], [⟨"d1", .channel, "123", "alpha"⟩],
     [("d1", "alpha")]⟩).mpr (by decide)

/-- **C5 (counterexample).** A config whose `routing.defaults` maps the
known discord bot `"d1"` to the backend id `"ghost"`, with an *empty*
backend set: the claim requires construction to fail, yet
`RoutingTable.__init__` succeeds (default-table values are unchecked). -/
theorem routing_defaults_value_unchecked_cex :
    (∃ e ∈ (⟨["d1"], [], [], [("d1", "ghost")]⟩ : RoutingAppConfig).defaults,
      (⟨["d1"], [], [], [("d1", "ghost")]⟩ :
        RoutingAppConfig).backend_bot_ids.contains e.2 = false) ∧
    exceptIsOk (routingTableInit ⟨["d1"], [], [], [("d1", "ghost")]⟩) = true := by
  constructor
  · exact ⟨("d1", "ghost"), by decide, by decide⟩
  · decide

/-! ## C8: nudge scheduling (`QueueService._schedule_webhook_nudge_sync`) -/

/-- The field updates performed on an existing nudge row: always refresh
`discord_bot_id`, `last_dedupe_key`, `next_attempt_at`, `updated_at`; then
the two sequential state resets of the source (`FAILED → PENDING` with
`attempts = 0` and `last_error` cleared, `SENDING → PENDING` with
`attempts` kept). -/
def applyNudgeUpdate (discord_bot_id dedupe_key : String)
    (next_attempt_at now : Int) (n : WebhookNudge) : WebhookNudge :=
  let n1 := { n with discord_bot_id := some discord_bot_id,
                     last_dedupe_key := some dedupe_key,
                     next_attempt_at := next_attempt_at,
                     updated_at := now }
  let n2 := if n1.state = .failed then
      { n1 with state := .pending, attempts := 0, last_error := none }
    else n1
  if n2.state = .sending then { n2 with state := .pending } else n2

/-- Update the first nudge row matching the backend (the row
`select(...).first()` would return). -/
def updateFirstNudge (backend_bot_id discord_bot_id dedupe_key : String)
    (next_attempt_at now : Int) : List WebhookNudge → List WebhookNudge
  | [] => []
  | n :: ns =>
    if n.backend_bot_id == backend_bot_id then
      applyNudgeUpdate discord_bot_id dedupe_key next_attempt_at now n :: ns
    else
      n :: updateFirstNudge backend_bot_id discord_bot_id dedupe_key
        next_attempt_at now ns

/-- The fresh nudge row inserted when none exists for the backend. -/
def mkNudge (nudgeId backend_bot_id discord_bot_id dedupe_key : String)
    (next_attempt_at now : Int) : WebhookNudge :=
  { id := nudgeId
    backend_bot_id := backend_bot_id
    discord_bot_id := some discord_bot_id
    last_dedupe_key := some dedupe_key
    state := .pending
    attempts := 0
    next_attempt_at := next_attempt_at
    last_error := none
    created_at := now
    updated_at := now }

/-- `QueueService._schedule_webhook_nudge_sync`: upsert keyed by
`backend_bot_id` with `next_attempt_at = now + max 0 debounce`. -/
def scheduleWebhookNudgeSync (st : Store)
    (backend_bot_id discord_bot_id dedupe_key : String)
    (debounce_seconds now : Int) (nudgeId : String) : Store :=
  let next_attempt_at := now + max 0 debounce_seconds
  match st.nudges.find? (fun n => n.backend_bot_id == backend_bot_id) with
  | none =>
    { st with nudges := st.nudges ++
        [mkNudge nudgeId backend_bot_id discord_bot_id dedupe_key
          next_attempt_at now] }
  | some _ =>
    { st with nudges := (updateFirstNudge backend_bot_id discord_bot_id
        dedupe_key next_attempt_at now st.nudges) }

theorem applyNudgeUpdate_backend (dbot dk : String) (next now : Int)
    (n : WebhookNudge) :
    (applyNudgeUpdate dbot dk next now n).backend_bot_id = n.backend_bot_id := by
  unfold applyNudgeUpdate
  cases hs : n.state <;> simp [hs]

theorem updateFirstNudge_count (b dbot dk b' : String) (next now : Int) :
    ∀ ns : List WebhookNudge,
    ((updateFirstNudge b dbot dk next now ns).filter
      (fun n => n.backend_bot_id == b')).length =
    (ns.filter (fun n => n.backend_bot_id == b')).length
  | [] => rfl
  | n :: ns => by
    by_cases hn : n.backend_bot_id == b
    · simp only [updateFirstNudge, if_pos hn, List.filter_cons,
        applyNudgeUpdate_backend]
      split <;> simp
    · simp only [updateFirstNudge, if_neg hn, List.filter_cons]
      split <;> simp [updateFirstNudge_count b dbot dk b' next now ns]

/-- **C8.** Nudge scheduling is an upsert keeping at most one row per
backend: with no existing row it inserts a PENDING row with
`attempts = 0`; with an existing row it always refreshes the chat-bot id,
`last_dedupe_key`, `updated_at` and `next_attempt_at = now + debounce`
(clamped at 0, sliding debounce); a FAILED row resets to PENDING with
`attempts = 0` and `last_error` cleared; a SENDING row resets to PENDING
with `attempts` (and `last_error`) kept; other tables are untouched. -/
theorem schedule_nudge_upsert (st : Store) (b dbot dk : String)
    (deb now : Int) (nid : String) :
    (scheduleWebhookNudgeSync st b dbot dk deb now nid).messages =
      st.messages ∧
    (scheduleWebhookNudgeSync st b dbot dk deb now nid).deliveries =
      st.deliveries ∧
    ((∀ b', ((st.nudges.filter fun n => n.backend_bot_id == b').length ≤ 1)) →
      ∀ b', (((scheduleWebhookNudgeSync st b dbot dk deb now nid).nudges.filter
        fun n => n.backend_bot_id == b').length ≤ 1)) ∧
    ((st.nudges.find? fun n => n.backend_bot_id == b) = none →
      (scheduleWebhookNudgeSync st b dbot dk deb now nid).nudges =
        st.nudges ++ [mkNudge nid b dbot dk (now + max 0 deb) now] ∧
      (mkNudge nid b dbot dk (now + max 0 deb) now).state = .pending ∧
      (mkNudge nid b dbot dk (now + max 0 deb) now).attempts = 0) ∧
    (∀ n : WebhookNudge,
      (applyNudgeUpdate dbot dk (now + max 0 deb) now n).discord_bot_id =
        some dbot ∧
      (applyNudgeUpdate dbot dk (now + max 0 deb) now n).last_dedupe_key =
        some dk ∧
      (applyNudgeUpdate dbot dk (now + max 0 deb) now n).next_attempt_at =
        now + max 0 deb ∧
      (applyNudgeUpdate dbot dk (now + max 0 deb) now n).updated_at = now ∧
      (applyNudgeUpdate dbot dk (now + max 0 deb) now n).backend_bot_id =
        n.backend_bot_id ∧
      (n.state = .failed →
        (applyNudgeUpdate dbot dk (now + max 0 deb) now n).state = .pending ∧
        (applyNudgeUpdate dbot dk (now + max 0 deb) now n).attempts = 0 ∧
        (applyNudgeUpdate dbot dk (now + max 0 deb) now n).last_error = none) ∧
      (n.state = .sending →
        (applyNudgeUpdate dbot dk (now + max 0 deb) now n).state = .pending ∧
        (applyNudgeUpdate dbot dk (now + max 0 deb) now n).attempts =
          n.attempts ∧
        (applyNudgeUpdate dbot dk (now + max 0 deb) now n).last_error =
          n.last_error) ∧
      (n.state = .pending →
        (applyNudgeUpdate dbot dk (now + max 0 deb) now n).state = .pending ∧
        (applyNudgeUpdate dbot dk (now + max 0 deb) now n).attempts =
          n.attempts ∧
        (applyNudgeUpdate dbot dk (now + max 0 deb) now n).last_error =
          n.last_error)) ∧
    (∀ n0, (st.nudges.find? fun n => n.backend_bot_id == b) = some n0 →
      (scheduleWebhookNudgeSync st b dbot dk deb now nid).nudges =
        updateFirstNudge b dbot dk (now + max 0 deb) now st.nudges) := by
  refine ⟨?_, ?_, ?_, ?_, ?_, ?_⟩
  · unfold scheduleWebhookNudgeSync
    cases st.nudges.find? (fun n => n.backend_bot_id == b) <;> rfl
  · unfold scheduleWebhookNudgeSync
    cases st.nudges.find? (fun n => n.backend_bot_id == b) <;> rfl
  · intro h b'
    unfold scheduleWebhookNudgeSync
    cases hf : st.nudges.find? (fun n => n.backend_bot_id == b) with
    | none =>
      simp only [List.filter_append, List.length_append]
      by_cases hbb : (b == b') = true
      · have hbeq : b = b' := by simpa using hbb
        subst hbeq
        have hnil : (st.nudges.filter fun n => n.backend_bot_id == b) = [] := by
          rw [List.filter_eq_nil_iff]
          intro n hn
          exact List.find?_eq_none.mp hf n hn
        rw [hnil]
        simp [mkNudge]
      · have hone : ((([mkNudge nid b dbot dk (now + max 0 deb) now]).filter
            fun n => n.backend_bot_id == b').length = 0) := by
          simp [mkNudge, hbb]
        rw [hone]
        simpa using h b'
    | some n0 =>
      simp only []
      rw [updateFirstNudge_count]
      exact h b'
  · intro hf
    refine ⟨?_, rfl, rfl⟩
    unfold scheduleWebhookNudgeSync
    rw [hf]
  · intro n
    refine ⟨?_, ?_, ?_, ?_, applyNudgeUpdate_backend _ _ _ _ _, ?_, ?_, ?_⟩ <;>
      unfold applyNudgeUpdate <;> cases hs : n.state <;> simp [hs]
  · intro n0 hf
    unfold scheduleWebhookNudgeSync
    rw [hf]

/-- Witness for C8: rescheduling over a store holding one FAILED nudge for
the backend keeps the per-backend row count at one. -/
theorem schedule_nudge_upsert_witness :
    (((scheduleWebhookNudgeSync
        ⟨[], [], [⟨"n1", "alpha", none, some "old", .failed, 3, 5,
            some "boom", 0, 0⟩]⟩ "alpha" "d" "k" 2 10 "n2").nudges.filter
      fun n => n.backend_bot_id == "alpha").length ≤ 1) := by
  exact (schedule_nudge_upsert
    ⟨[], [], [⟨"n1", "alpha", none, some "old", .failed, 3, 5, some "boom",
        0, 0⟩]⟩ "alpha" "d" "k" 2 10 "n2").2.2.1
    (fun b' => by
      simpa using List.length_filter_le
        (fun n : WebhookNudge => n.backend_bot_id == b')
        [⟨"n1", "alpha", none, some "old", .failed, 3, 5, some "boom", 0, 0⟩])
    "alpha"

/-! ## C9: bearer authentication (`main.get_backend_identity`,
`auth.AuthService.authenticate`) -/

/-- Python `str.lower` on one character, modelled for the ASCII range (the
range the `"bearer "` prefix comparison exercises). -/
def pyLowerChar (c : Char) : Char :=
  if 65 ≤ c.toNat ∧ c.toNat ≤ 90 then Char.ofNat (c.toNat + 32) else c

/-- `str.lower` over the header, as a character list. -/
def pyLower (s : List Char) : List Char := s.map pyLowerChar

/-- The whitespace class stripped by `str.strip()` (ASCII subset). -/
def isPyWhitespace (c : Char) : Bool :=
  c == ' ' || c == '\t' || c == '\n' || c == '\r' ||
    c == Char.ofNat 11 || c == Char.ofNat 12

/-- `str.strip()`: drop leading and trailing whitespace. -/
def pyStrip (s : List Char) : List Char :=
  ((s.dropWhile isPyWhitespace).reverse.dropWhile isPyWhitespace).reverse

/-- The first-space split underlying `str.split(" ", 1)`. -/
def splitOnFirstSpace : List Char → Option (List Char × List Char)
  | [] => none
  | c :: cs =>
    if c = ' ' then some ([], cs)
    else
      match splitOnFirstSpace cs with
      | none => none
      | some (pre, post) => some (c :: pre, post)

/-- `str.split(" ", 1)`: one or two pieces. -/
def pySplitSpace1 (s : List Char) : List (List Char) :=
  match splitOnFirstSpace s with
  | none => [s]
  | some (pre, post) => [pre, post]

/-- The literal `"bearer "` the handler compares against. -/
def bearerPrefix : List Char := ['b', 'e', 'a', 'r', 'e', 'r', ' ']

/-- An `auth.BackendIdentity`. -/
structure BackendIdentity where
  id : String
  name : String
deriving DecidableEq, Repr

/-- `AuthService.authenticate`: plain lookup in the API-key map (modelled
as the key-indexed association list the constructor builds from the
enabled backends). -/
def authenticate (keys : List (List Char × BackendIdentity))
    (api_key : List Char) : Option BackendIdentity :=
  match keys.find? (fun e => e.1 == api_key) with
  | none => none
  | some e => some e.2

/-- `main.get_backend_identity`: 401 (`none`) when the header is missing,
empty (falsy), or does not start with `"bearer "` case-insensitively;
otherwise authenticate `split(" ", 1)[1].strip()`. -/
def getBackendIdentity (keys : List (List Char × BackendIdentity))
    (authorization : Option (List Char)) : Option BackendIdentity :=
  match authorization with
  | none => none
  | some a =>
    if a.isEmpty then none
    else if !(bearerPrefix.isPrefixOf (pyLower a)) then none
    else authenticate keys (pyStrip ((pySplitSpace1 a).getD 1 []))

theorem ofNat_lowercase_ne_space {n : Nat} (h1 : 97 ≤ n) (h2 : n ≤ 122) :
    Char.ofNat n ≠ ' ' := by
  interval_cases n <;> decide

theorem pyLowerChar_eq_space {c : Char} (h : pyLowerChar c = ' ') :
    c = ' ' := by
  unfold pyLowerChar at h
  split at h
  · exfalso
    exact ofNat_lowercase_ne_space (by omega) (by omega) h
  · exact h

theorem splitOnFirstSpace_spec :
    ∀ (pre rest : List Char), (∀ c ∈ pre, c ≠ ' ') →
    splitOnFirstSpace (pre ++ ' ' :: rest) = some (pre, rest)
  | [], rest, _ => by simp [splitOnFirstSpace]
  | c :: pre, rest, h => by
    have hc : c ≠ ' ' := h c (List.mem_cons_self _ _)
    simp only [List.cons_append, splitOnFirstSpace, if_neg hc]
    rw [List.append_eq, splitOnFirstSpace_spec pre rest
      (fun x hx => h x (List.mem_cons_of_mem _ hx))]

/-- A header whose lowering starts with `"bearer "` is six non-space
characters, a space, and the remainder. -/
theorem bearer_header_decomp (a : List Char)
    (hpre : bearerPrefix.isPrefixOf (pyLower a) = true) :
    ∃ c0 c1 c2 c3 c4 c5 rest,
      a = c0 :: c1 :: c2 :: c3 :: c4 :: c5 :: ' ' :: rest ∧
      c0 ≠ ' ' ∧ c1 ≠ ' ' ∧ c2 ≠ ' ' ∧ c3 ≠ ' ' ∧ c4 ≠ ' ' ∧ c5 ≠ ' ' := by
  match a with
  | [] => simp [pyLower, bearerPrefix, List.isPrefixOf] at hpre
  | [c0] => simp [pyLower, bearerPrefix, List.isPrefixOf] at hpre
  | [c0, c1] => simp [pyLower, bearerPrefix, List.isPrefixOf] at hpre
  | [c0, c1, c2] => simp [pyLower, bearerPrefix, List.isPrefixOf] at hpre
  | [c0, c1, c2, c3] => simp [pyLower, bearerPrefix, List.isPrefixOf] at hpre
  | [c0, c1, c2, c3, c4] =>
    simp [pyLower, bearerPrefix, List.isPrefixOf] at hpre
  | [c0, c1, c2, c3, c4, c5] =>
    simp [pyLower, bearerPrefix, List.isPrefixOf] at hpre
  | c0 :: c1 :: c2 :: c3 :: c4 :: c5 :: c6 :: rest =>
    simp only [pyLower, bearerPrefix, List.map_cons, List.isPrefixOf,
      Bool.and_eq_true, beq_iff_eq] at hpre
    obtain ⟨h0, h1, h2, h3, h4, h5, h6, -⟩ := hpre
    have hc6 : c6 = ' ' := pyLowerChar_eq_space h6.symm
    subst hc6
    refine ⟨c0, c1, c2, c3, c4, c5, rest, rfl, ?_, ?_, ?_, ?_, ?_, ?_⟩ <;>
      (rintro rfl) <;> first
      | exact absurd h0 (by decide)
      | exact absurd h1 (by decide)
      | exact absurd h2 (by decide)
      | exact absurd h3 (by decide)
      | exact absurd h4 (by decide)
      | exact absurd h5 (by decide)

/-- **C9.** Bearer authentication is prefix-case-insensitive and
whitespace-tolerant: a missing header is rejected, and a present header
authenticates exactly when its lowering starts with `"bearer "` and the
remainder after the first space, stripped of surrounding whitespace, looks
up an enabled backend's API key; in particular `"BEARER k"` and
`"Bearer  k "` behave like `"Bearer k"`. -/
theorem bearer_auth_characterization
    (keys : List (List Char × BackendIdentity)) (a : List Char) :
    getBackendIdentity keys none = none ∧
    getBackendIdentity keys (some a) =
      (if bearerPrefix.isPrefixOf (pyLower a) = true then
        authenticate keys (pyStrip (a.drop 7))
      else none) ∧
    getBackendIdentity keys (some ("BEARER k".data)) =
      getBackendIdentity keys (some ("Bearer k".data)) ∧
    getBackendIdentity keys (some ("Bearer  k ".data)) =
      getBackendIdentity keys (some ("Bearer k".data)) := by
  refine ⟨rfl, ?_, rfl, rfl⟩
  by_cases hpre : bearerPrefix.isPrefixOf (pyLower a) = true
  case pos =>
    obtain ⟨c0, c1, c2, c3, c4, c5, rest, rfl, n0, n1, n2, n3, n4, n5⟩ :=
      bearer_header_decomp a hpre
    rw [if_pos hpre]
    simp only [getBackendIdentity]
    rw [if_neg (by simp), if_neg (by simp [hpre])]
    have hsplit : splitOnFirstSpace
        (c0 :: c1 :: c2 :: c3 :: c4 :: c5 :: ' ' :: rest) =
        some ([c0, c1, c2, c3, c4, c5], rest) := by
      exact splitOnFirstSpace_spec [c0, c1, c2, c3, c4, c5] rest
        (by intro c hc
            simp only [List.mem_cons, List.not_mem_nil, or_false] at hc
            rcases hc with rfl | rfl | rfl | rfl | rfl | rfl
            exacts [n0, n1, n2, n3, n4, n5])
    simp [pySplitSpace1, hsplit]
  case neg =>
    have hprefalse : bearerPrefix.isPrefixOf (pyLower a) = false := by
      revert hpre
      cases bearerPrefix.isPrefixOf (pyLower a) <;> simp
    rw [if_neg (by simp [hprefalse])]
    simp only [getBackendIdentity]
    by_cases hempty : a.isEmpty = true
    · simp [hempty]
    · simp [hempty, hprefalse]

/-! ## C10: webhook delivery outcomes
(`webhooks.WebhookDispatcher._deliver_one` / `_schedule_retry`) -/

/-- The retry-relevant part of a `WebhookConfig`. -/
structure WebhookConfig where
  max_retries : Nat
  retry_backoff_seconds : List Int
deriving DecidableEq, Repr

/-- What `_deliver_one` does to the claimed nudge. -/
inductive NudgeOutcome where
  | deleted
  | rescheduled (attempts : Nat) (next_attempt_at : Int) (error : String)
  | failed (error : String)
deriving DecidableEq, Repr

/-- `WebhookDispatcher._schedule_retry`: bump `attempts`, mark FAILED past
`max_retries`, else reschedule after the clamped backoff entry (the
backoff list is non-empty by config validation; `getD` covers the
unreachable empty case). -/
def scheduleRetry (cfg : WebhookConfig) (prior_attempts : Nat) (now : Int)
    (error : String) : NudgeOutcome :=
  let attempts := prior_attempts + 1
  if attempts > cfg.max_retries then .failed error
  else
    let backoff_idx :=
      max 0 (min (attempts - 1) (cfg.retry_backoff_seconds.length - 1))
    .rescheduled attempts
      (now + cfg.retry_backoff_seconds.getD backoff_idx 0) error

/-- The HTTP-response tail of `_deliver_one`: 2xx deletes the nudge; 429
or any status ≥ 500 is retryable; every other status marks FAILED with
`http_status:<code>`. -/
def deliverHttpOutcome (cfg : WebhookConfig) (prior_attempts status : Nat)
    (now : Int) : NudgeOutcome :=
  if 200 ≤ status ∧ status < 300 then .deleted
  else
    let retryable := status == 429 || decide (500 ≤ status)
    let error := "http_status:" ++ toString status
    if retryable then scheduleRetry cfg prior_attempts now error
    else .failed error

/-- The transport-error path of `_deliver_one`: always retryable with
`request_error:<class>`. -/
def deliverTransportErrorOutcome (cfg : WebhookConfig) (prior_attempts : Nat)
    (excClass : String) (now : Int) : NudgeOutcome :=
  scheduleRetry cfg prior_attempts now ("request_error:" ++ excClass)

/-- **C10.** Among HTTP statuses only 429 and ≥ 500 can lead to a
reschedule (transport errors also reschedule while retries remain); every
other non-2xx status — 3xx included — marks the nudge FAILED with
`last_error = "http_status:<code>"` and schedules no retry. -/
theorem webhook_retry_classification (cfg : WebhookConfig) (k s : Nat)
    (now : Int) (excClass : String) :
    (∀ a n e, deliverHttpOutcome cfg k s now = .rescheduled a n e →
      s = 429 ∨ 500 ≤ s) ∧
    (¬(200 ≤ s ∧ s < 300) → s ≠ 429 → s < 500 →
      deliverHttpOutcome cfg k s now = .failed ("http_status:" ++ toString s)) ∧
    (k + 1 ≤ cfg.max_retries →
      ∃ n, deliverTransportErrorOutcome cfg k excClass now =
        .rescheduled (k + 1) n ("request_error:" ++ excClass)) := by
  refine ⟨?_, ?_, ?_⟩
  · intro a n e h
    unfold deliverHttpOutcome at h
    split at h
    · exact absurd h (by simp)
    · by_cases hr : (s == 429 || decide (500 ≤ s)) = true
      · simpa using hr
      · rw [if_neg (by simpa using hr)] at h
        exact absurd h (by simp)
  · intro h2xx h429 h500
    unfold deliverHttpOutcome
    rw [if_neg h2xx, if_neg (by simp [h429, Nat.not_le_of_lt h500])]
  · intro hk
    unfold deliverTransportErrorOutcome scheduleRetry
    rw [if_neg (by omega)]
    exact ⟨_, rfl⟩

/-- Witness for C10: a 303 redirect with no prior attempts marks the
nudge FAILED with `http_status:303`, and a transport error reschedules. -/
theorem webhook_retry_classification_witness :
    deliverHttpOutcome ⟨5, [1, 2]⟩ 0 303 0 =
      .failed ("http_status:" ++ toString 303) ∧
    (∃ n, deliverTransportErrorOutcome ⟨5, [1, 2]⟩ 0 "ConnectError" 0 =
      .rescheduled 1 n ("request_error:" ++ "ConnectError")) := by
  have h := webhook_retry_classification ⟨5, [1, 2]⟩ 0 303 0 "ConnectError"
  exact ⟨h.2.1 (by decide) (by decide) (by decide), h.2.2 (by decide)⟩


/-! ## C7: webhook signature (`webhooks.compute_webhook_signature`,
`WebhookDispatcher._deliver_one`) -/

def w32 (n : Nat) : Nat := n % 4294967296

def rotr32 (n x : Nat) : Nat := w32 ((x >>> n) ||| (x <<< (32 - n)))

def shaK : List Nat :=
  [1116352408, 1899447441, 3049323471, 3921009573, 961987163,
   1508970993, 2453635748, 2870763221, 3624381080, 310598401,
   607225278, 1426881987, 1925078388, 2162078206, 2614888103,
   3248222580, 3835390401, 4022224774, 264347078, 604807628,
   770255983, 1249150122, 1555081692, 1996064986, 2554220882,
   2821834349, 2952996808, 3210313671, 3336571891, 3584528711,
   113926993, 338241895, 666307205, 773529912, 1294757372,
   1396182291, 1695183700, 1986661051, 2177026350, 2456956037,
   2730485921, 2820302411, 3259730800, 3345764771, 3516065817,
   3600352804, 4094571909, 275423344, 430227734, 506948616,
   659060556, 883997877, 958139571, 1322822218, 1537002063,
   1747873779, 1955562222, 2024104815, 2227730452, 2361852424,
   2428436474, 2756734187, 3204031479, 3329325298]

def shaInitH : List Nat :=
  [1779033703, 3144134277, 1013904242, 2773480762, 1359893119,
   2600822924, 528734635, 1541459225]

def toBytesBE (len n : Nat) : List Nat :=
  (List.range len).map fun i => (n >>> (8 * (len - 1 - i))) % 256

def sha256Pad (msg : List Nat) : List Nat :=
  let L := msg.length
  let z := (56 + 64 - ((L + 1) % 64)) % 64
  msg ++ [0x80] ++ List.replicate z 0 ++ toBytesBE 8 (L * 8)

def chunks64Go : Nat → List Nat → List (List Nat)
  | 0, _ => []
  | _, [] => []
  | fuel + 1, x :: xs => ((x :: xs).take 64) :: chunks64Go fuel ((x :: xs).drop 64)

def chunks64 (l : List Nat) : List (List Nat) := chunks64Go l.length l

def wordBE (bytes : List Nat) : Nat := bytes.foldl (fun acc b => acc * 256 + b) 0

def blockWords (blk : List Nat) : List Nat :=
  (List.range 16).map fun i => wordBE ((blk.drop (4 * i)).take 4)

def ssig0 (x : Nat) : Nat := rotr32 7 x ^^^ rotr32 18 x ^^^ (x >>> 3)
def ssig1 (x : Nat) : Nat := rotr32 17 x ^^^ rotr32 19 x ^^^ (x >>> 10)

def extendW : Nat → List Nat → List Nat
  | 0, ws => ws
  | k + 1, ws =>
    let n := ws.length
    let wi := w32 (ssig1 (ws.getD (n - 2) 0) + ws.getD (n - 7) 0 +
      ssig0 (ws.getD (n - 15) 0) + ws.getD (n - 16) 0)
    extendW k (ws ++ [wi])

def compressStep : List Nat → Nat × Nat → List Nat
  | [a, b, c, d, e, f, g, h], (ki, wi) =>
    let s1 := rotr32 6 e ^^^ rotr32 11 e ^^^ rotr32 25 e
    let ch := (e &&& f) ^^^ ((0xffffffff ^^^ e) &&& g)
    let t1 := w32 (h + s1 + ch + ki + wi)
    let s0 := rotr32 2 a ^^^ rotr32 13 a ^^^ rotr32 22 a
    let mj := (a &&& b) ^^^ (a &&& c) ^^^ (b &&& c)
    let t2 := w32 (s0 + mj)
    [w32 (t1 + t2), a, b, c, w32 (d + t1), e, f, g]
  | s, _ => s

def compressBlock (hs : List Nat) (blk : List Nat) : List Nat :=
  let ws := extendW 48 (blockWords blk)
  let out := (shaK.zip ws).foldl compressStep hs
  List.zipWith (fun x y => w32 (x + y)) hs out

def sha256 (msg : List Nat) : List Nat :=
  let hfinal := (chunks64 (sha256Pad msg)).foldl compressBlock shaInitH
  (hfinal.map (toBytesBE 4)).flatten

def hexDigitChar (n : Nat) : Char :=
  if n < 10 then Char.ofNat (48 + n) else Char.ofNat (87 + n)

def toLowerHex (bytes : List Nat) : String :=
  String.mk ((bytes.map fun b => [hexDigitChar (b / 16), hexDigitChar (b % 16)]).flatten)

def hmacSha256 (key msg : List Nat) : List Nat :=
  let k0 := if 64 < key.length then sha256 key else key
  let kpad := k0 ++ List.replicate (64 - k0.length) 0
  let ipadKey := kpad.map fun b => b ^^^ 0x36
  let opadKey := kpad.map fun b => b ^^^ 0x5c
  sha256 (opadKey ++ sha256 (ipadKey ++ msg))

def utf8Char (c : Char) : List Nat :=
  let n := c.toNat
  if n < 0x80 then [n]
  else if n < 0x800 then [0xC0 ||| (n >>> 6), 0x80 ||| (n &&& 0x3F)]
  else if n < 0x10000 then
    [0xE0 ||| (n >>> 12), 0x80 ||| ((n >>> 6) &&& 0x3F), 0x80 ||| (n &&& 0x3F)]
  else
    [0xF0 ||| (n >>> 18), 0x80 ||| ((n >>> 12) &&& 0x3F),
     0x80 ||| ((n >>> 6) &&& 0x3F), 0x80 ||| (n &&& 0x3F)]

def utf8Encode (s : String) : List Nat := (s.data.map utf8Char).flatten

example :
    sha256 [] =
      [0xe3, 0xb0, 0xc4, 0x42, 0x98, 0xfc, 0x1c, 0x14, 0x9a, 0xfb, 0xf4, 0xc8,
       0x99, 0x6f, 0xb9, 0x24, 0x27, 0xae, 0x41, 0xe4, 0x64, 0x9b, 0x93, 0x4c,
       0xa4, 0x95, 0x99, 0x1b, 0x78, 0x52, 0xb8, 0x55] := by
  decide

set_option maxRecDepth 4000 in
example :
    hmacSha256 (utf8Encode "key")
      (utf8Encode "The quick brown fox jumps over the lazy dog") =
      [0xf7, 0xbc, 0x83, 0xf4, 0x30, 0x53, 0x84, 0x24, 0xb1, 0x32, 0x98, 0xe6,
       0xaa, 0x6f, 0xb1, 0x43, 0xef, 0x4d, 0x59, 0xa1, 0x49, 0x46, 0x17, 0x59,
       0x97, 0x47, 0x9d, 0xbc, 0x2d, 0x1a, 0x3c, 0xd8] := by
  decide

/-- The state of a `hmac.new(...)` object: the key and the bytes fed so
far (`update` appends; `hexdigest` runs HMAC-SHA256 over the
accumulated stream). -/
structure HmacState where
  key : List Nat
  buffer : List Nat
deriving DecidableEq, Repr

/-- `hmac.new(secret.encode("utf-8"), digestmod=sha256)`. -/
def hmacNew (secret : String) : HmacState := ⟨utf8Encode secret, []⟩

/-- `mac.update(bs)`. -/
def HmacState.update (st : HmacState) (bs : List Nat) : HmacState :=
  ⟨st.key, st.buffer ++ bs⟩

/-- `mac.hexdigest()`: lowercase hex of the final digest. -/
def HmacState.hexdigest (st : HmacState) : String :=
  toLowerHex (hmacSha256 st.key st.buffer)

/-- `webhooks.compute_webhook_signature`: update with the timestamp, a
dot, and the body, then hexdigest. -/
def computeWebhookSignature (secret timestamp : String) (body : List Nat) :
    String :=
  ((((hmacNew secret).update (utf8Encode timestamp)).update
    (utf8Encode ".")).update body).hexdigest

/-- The signed POST assembled by `_deliver_one`: headers and the exact
body bytes sent, with the timestamp `str(int(time.time()))`. -/
structure WebhookRequest where
  content_type : String
  x_relay_timestamp : String
  x_relay_signature : String
  body : List Nat
deriving DecidableEq, Repr

/-- The request `_deliver_one` POSTs, given the already-serialized JSON
body bytes and the clock in whole seconds. -/
def deliverOneRequest (secret : String) (body : List Nat)
    (nowSeconds : Nat) : WebhookRequest :=
  let timestamp := toString nowSeconds
  { content_type := "application/json"
    x_relay_timestamp := timestamp
    x_relay_signature := computeWebhookSignature secret timestamp body
    body := body }

/-- **C7.** The `X-Relay-Signature` header is the lowercase-hex
HMAC-SHA256, keyed by the UTF-8 secret, of
`timestamp || "." || body` where `timestamp` is the decimal string of
whole seconds since epoch carried in `X-Relay-Timestamp` and `body` is
the exact byte string POSTed. -/
theorem webhook_signature_over_timestamp_dot_body
    (secret timestamp : String) (body : List Nat) (nowSeconds : Nat) :
    computeWebhookSignature secret timestamp body =
      toLowerHex (hmacSha256 (utf8Encode secret)
        (utf8Encode timestamp ++ utf8Encode "." ++ body)) ∧
    (deliverOneRequest secret body nowSeconds).x_relay_signature =
      toLowerHex (hmacSha256 (utf8Encode secret)
        (utf8Encode (deliverOneRequest secret body nowSeconds).x_relay_timestamp ++
          utf8Encode "." ++ (deliverOneRequest secret body nowSeconds).body)) ∧
    (deliverOneRequest secret body nowSeconds).x_relay_timestamp =
      toString nowSeconds ∧
    (deliverOneRequest secret body nowSeconds).body = body := by
  refine ⟨?_, ?_, rfl, rfl⟩
  · simp only [computeWebhookSignature, hmacNew, HmacState.update,
      HmacState.hexdigest]
    rw [List.nil_append, List.append_assoc]
  · simp only [deliverOneRequest, computeWebhookSignature, hmacNew,
      HmacState.update, HmacState.hexdigest]
    rw [List.nil_append, List.append_assoc]

end Relay
